import Mathlib

set_option autoImplicit false

/-!
Verification of the naebak-gateway routing core against its design document.

The Python sources `routing_system.py` and `monitoring/health_checker.py` are
shallowly embedded below.  Conventions used throughout:

* Timestamps are natural numbers counting whole seconds.  Python's
  `(a - b).seconds` on a `timedelta` is the *normalized* seconds field, i.e.
  the floor-modulus `(a - b) mod 86400`; `tdSeconds` models this exactly.
* Python `float` arithmetic on metrics is modelled with `Rat`.
* Python dicts are insertion-ordered association lists (`dictUpsert`,
  `dictGet?`), except where the code only ever reads with a default
  (`dict.get(k, d)`), in which case a total function suffices.
* Nondeterminism (`random.choice`, string `hash`) is modelled by explicit
  parameters (`rand : Nat`, `ipHash : String → Nat`).
* Methods that mutate `self` become functions returning the updated value
  (paired with the result where the method also returns one).
-/

/-- Python `(datetime_a - datetime_b).seconds` for whole-second timestamps:
`timedelta` normalizes to days/seconds/microseconds with `0 ≤ seconds < 86400`,
so the `seconds` attribute is the floor-modulus of the difference by 86400. -/
def tdSeconds (a b : Nat) : Nat := (((a : Int) - (b : Int)) % 86400).toNat

/-- Insertion-ordered dict update (`d[k] = v`): an existing key keeps its
position and gets the new value; a new key is appended at the end. -/
def dictUpsert {κ ν : Type} [DecidableEq κ] : List (κ × ν) → κ → ν → List (κ × ν)
  | [], k, v => [(k, v)]
  | (k', v') :: rest, k, v =>
    if k' = k then (k', v) :: rest else (k', v') :: dictUpsert rest k v

/-- Dict lookup (`d[k]` / `k in d`). -/
def dictGet? {κ ν : Type} [DecidableEq κ] : List (κ × ν) → κ → Option ν
  | [], _ => none
  | (k', v') :: rest, k => if k' = k then some v' else dictGet? rest k

/-- Python `min(best :: xs, key)`: fold keeping the current best, replacing it
only on a strictly smaller key, so the first minimum wins ties. -/
def pyMinAux {α β : Type} [LinearOrder β] (key : α → β) : α → List α → α
  | best, [] => best
  | best, x :: xs => if key x < key best then pyMinAux key x xs else pyMinAux key best xs

/-- `a` is the element of `l` that minimizes `key`, with ties broken by the
first position: some index holds `a`, no element has a smaller key, and every
strictly earlier element has a strictly larger key. -/
def IsFirstArgmin {α β : Type} [LinearOrder β] (key : α → β) (l : List α) (a : α) : Prop :=
  ∃ i, l.get? i = some a ∧ (∀ j z, l.get? j = some z → key a ≤ key z) ∧
    (∀ j z, j < i → l.get? j = some z → key a < key z)

namespace Monitoring

/-! ### `src/monitoring/health_checker.py` -/

inductive CircuitState
  | CLOSED
  | OPEN
  | HALF_OPEN
deriving DecidableEq

structure CircuitBreakerConfig where
  failure_threshold : Nat := 5
  recovery_timeout : Nat := 60
  timeout : Nat := 10
  success_threshold : Nat := 3
deriving DecidableEq

structure CircuitBreaker where
  config : CircuitBreakerConfig
  state : CircuitState := .CLOSED
  failure_count : Nat := 0
  success_count : Nat := 0
  last_failure_time : Option Nat := none
deriving DecidableEq

/-- `CircuitBreaker._should_attempt_reset`. -/
def CircuitBreaker.should_attempt_reset (cb : CircuitBreaker) (now : Nat) : Bool :=
  match cb.last_failure_time with
  | none => true
  | some t => cb.config.recovery_timeout ≤ tdSeconds now t

/-- `CircuitBreaker.can_execute`: returns the boolean answer and the (possibly
OPEN→HALF_OPEN transitioned) breaker. -/
def CircuitBreaker.can_execute (cb : CircuitBreaker) (now : Nat) : Bool × CircuitBreaker :=
  match cb.state with
  | .CLOSED => (true, cb)
  | .OPEN =>
    if cb.should_attempt_reset now then
      (true, { cb with state := .HALF_OPEN, success_count := 0 })
    else
      (false, cb)
  | .HALF_OPEN => (true, cb)

/-- `CircuitBreaker.record_success`. -/
def CircuitBreaker.record_success (cb : CircuitBreaker) : CircuitBreaker :=
  let cb' := { cb with failure_count := 0 }
  if cb'.state = .HALF_OPEN then
    let sc := cb'.success_count + 1
    if cb'.config.success_threshold ≤ sc then
      { cb' with success_count := sc, state := .CLOSED }
    else
      { cb' with success_count := sc }
  else
    cb'

/-- `CircuitBreaker.record_failure`. -/
def CircuitBreaker.record_failure (cb : CircuitBreaker) (now : Nat) : CircuitBreaker :=
  let cb' := { cb with failure_count := cb.failure_count + 1, last_failure_time := some now }
  match cb'.state with
  | .CLOSED =>
    if cb'.config.failure_threshold ≤ cb'.failure_count then { cb' with state := .OPEN } else cb'
  | .HALF_OPEN => { cb' with state := .OPEN }
  | .OPEN => cb'

inductive ServiceStatus
  | HEALTHY
  | UNHEALTHY
  | DEGRADED
  | UNKNOWN
deriving DecidableEq

structure HealthCheckResult where
  service_name : String
  status : ServiceStatus
  response_time : Rat
  timestamp : Nat
  error_message : Option String := none
  details : List (String × String) := []
deriving DecidableEq

/-- The last (up to) 100 elements of a list (Python `l[-100:]`). -/
def takeLast100 {α : Type} (l : List α) : List α := l.drop (l.length - 100)

/-- The history append performed per service in `HealthChecker.check_all_services`:
append, then truncate to the last 100 entries when the length exceeds 100. -/
def appendHistoryBounded (history : List HealthCheckResult) (result : HealthCheckResult) :
    List HealthCheckResult :=
  let h2 := history ++ [result]
  if 100 < h2.length then h2.drop (h2.length - 100) else h2

end Monitoring

namespace Routing

/-! ### `src/routing_system.py` -/

inductive LoadBalancingStrategy
  | ROUND_ROBIN
  | LEAST_CONNECTIONS
  | WEIGHTED_ROUND_ROBIN
  | RANDOM
  | IP_HASH
deriving DecidableEq

inductive ServiceStatus
  | HEALTHY
  | UNHEALTHY
  | DEGRADED
  | MAINTENANCE
deriving DecidableEq

structure ServiceInstance where
  id : String
  url : String
  weight : Nat := 1
  status : ServiceStatus := .HEALTHY
  last_health_check : Nat := 0
  response_time : Rat := 0
  active_connections : Nat := 0
  error_rate : Rat := 0
  version : String := "1.0.0"
  metadata : List (String × String) := []
deriving DecidableEq

structure RouteRule where
  pattern : List Char
  service_name : String
  load_balancing : LoadBalancingStrategy := .ROUND_ROBIN
  auth_required : Bool := false
  admin_only : Bool := false
  rate_limit : String := "100/minute"
  timeout : Nat := 30
  retry_count : Nat := 3
  circuit_breaker : Bool := true
  canary_percentage : Rat := 0
  request_transform : List (String × String) := []
  response_transform : List (String × String) := []
deriving DecidableEq

inductive BreakerState
  | CLOSED
  | OPEN
  | HALF_OPEN
deriving DecidableEq

/-- The per-service breaker of `routing_system.py` (independent of the
monitoring one: different fields, no success threshold). -/
structure CircuitBreaker where
  failure_threshold : Nat := 5
  recovery_timeout : Nat := 60
  failure_count : Nat := 0
  last_failure_time : Option Nat := none
  state : BreakerState := .CLOSED
deriving DecidableEq

/-- `CircuitBreaker._should_attempt_reset` in `routing_system.py`. -/
def CircuitBreaker.should_attempt_reset (cb : CircuitBreaker) (now : Nat) : Bool :=
  match cb.last_failure_time with
  | none => true
  | some t => cb.recovery_timeout ≤ tdSeconds now t

/-- The admission gate of `CircuitBreaker.call`: `call` raises "Circuit breaker
is OPEN" exactly when the state is OPEN and the recovery timeout has not
elapsed; otherwise the wrapped call is attempted.  This is the `CanExecute`
of the design document for the routing-side breaker. -/
def CircuitBreaker.canExecute (cb : CircuitBreaker) (now : Nat) : Bool :=
  match cb.state with
  | .OPEN => cb.should_attempt_reset now
  | _ => true

/-- One entry of `ServiceRegistry.request_history` (the dict appended in
`update_instance_metrics`). -/
structure RequestRecord where
  timestamp : Nat
  success : Bool
  response_time : Rat
deriving DecidableEq

/-- Per-service slice of `ServiceRegistry.load_balancer_state`.  A `none`
field models the key being absent from the inner dict; the weighted counters
themselves are a total function because the code only reads them through
`counters.get(id, 0)`. -/
structure LBState where
  round_robin_index : Option Nat := none
  weighted_counters : Option (String → Nat) := none

structure ServiceRegistry where
  services : String → List ServiceInstance
  route_rules : List (List Char × RouteRule)
  circuit_breakers : List (String × CircuitBreaker)
  load_balancer_state : String → LBState
  request_history : String → List RequestRecord

/-- `ServiceRegistry.add_route_rule`: a plain dict upsert, no validation. -/
def add_route_rule (r : ServiceRegistry) (pattern : List Char) (rule : RouteRule) :
    ServiceRegistry :=
  { r with route_rules := dictUpsert r.route_rules pattern rule }

/-- Python `str.split(sep)` for a one-character separator, on char lists. -/
def splitOnChar (c : Char) : List Char → List (List Char)
  | [] => [[]]
  | a :: rest =>
    if a = c then
      [] :: splitOnChar c rest
    else
      match splitOnChar c rest with
      | [] => [[a]]
      | g :: gs => (a :: g) :: gs

/-- Python `s.startswith(p)` on char lists (arguments: the short one first). -/
def startsWithL : List Char → List Char → Bool
  | [], _ => true
  | _ :: _, [] => false
  | a :: as, b :: bs => a == b && startsWithL as bs

/-- Python `s.endswith(p)` on char lists. -/
def endsWithL (suf s : List Char) : Bool := startsWithL suf.reverse s.reverse

/-- Python `s.rstrip(c)` for a one-character strip set. -/
def rstripChar (c : Char) (s : List Char) : List Char :=
  (s.reverse.dropWhile (fun a => a == c)).reverse

/-- `ServiceRegistry._pattern_matches`.  A pattern containing a `*` is split on
`*`; with exactly one `*` (two parts) the path must start with the part before
and end with the part after.  Otherwise (no `*`, or several, which fall
through in the source) a trailing-slash pattern matches by prefix after
stripping trailing slashes, and any other pattern only matches itself. -/
def pattern_matches (pattern path : List Char) : Bool :=
  let parts := splitOnChar '*' pattern
  if parts.length = 2 then
    startsWithL (parts.getD 0 []) path && endsWithL (parts.getD 1 []) path
  else if endsWithL ['/'] pattern then
    startsWithL (rstripChar '/' pattern) path
  else
    pattern == path

/-- `ServiceRegistry.get_healthy_instances`: status filter only. -/
def get_healthy_instances (r : ServiceRegistry) (service_name : String) :
    List ServiceInstance :=
  (r.services service_name).filter
    (fun inst => inst.status == ServiceStatus.HEALTHY || inst.status == ServiceStatus.DEGRADED)

/-- `ServiceRegistry._round_robin_select` on a nonempty candidate list. -/
def round_robin_select (r : ServiceRegistry) (service_name : String)
    (x : ServiceInstance) (xs : List ServiceInstance) :
    ServiceInstance × ServiceRegistry :=
  let lb := r.load_balancer_state service_name
  let index := lb.round_robin_index.getD 0
  let n := xs.length + 1
  let selected := (x :: xs).getD (index % n) x
  (selected,
    { r with load_balancer_state := fun name =>
        if name = service_name then
          { lb with round_robin_index := some ((index + 1) % n) }
        else r.load_balancer_state name })

/-- `ServiceRegistry._weighted_round_robin_select` on a nonempty candidate
list.  Initializing the counters dict to `{id: 0}` is observationally the
default-0 function, since every later access is `counters.get(id, 0)`. -/
def weighted_round_robin_select (r : ServiceRegistry) (service_name : String)
    (x : ServiceInstance) (xs : List ServiceInstance) :
    ServiceInstance × ServiceRegistry :=
  let lb := r.load_balancer_state service_name
  let counters := lb.weighted_counters.getD (fun _ => 0)
  let selected := pyMinAux (fun inst => (counters inst.id : Rat) / (inst.weight : Rat)) x xs
  let counters' := fun iid => if iid = selected.id then counters iid + 1 else counters iid
  (selected,
    { r with load_balancer_state := fun name =>
        if name = service_name then
          { lb with weighted_counters := some counters' }
        else r.load_balancer_state name })

/-- `ServiceRegistry.select_instance`.  `rand` models `random.choice` (index
modulo the list length) and `ipHash` models Python string `hash`; both are
explicit parameters because the source draws them from ambient state.  The
returned registry carries any load-balancer-state mutation. -/
def select_instance (r : ServiceRegistry) (service_name : String)
    (strategy : LoadBalancingStrategy) (client_ip : Option String)
    (rand : Nat) (ipHash : String → Nat) :
    Option ServiceInstance × ServiceRegistry :=
  match get_healthy_instances r service_name with
  | [] => (none, r)
  | x :: xs =>
    match strategy with
    | .ROUND_ROBIN =>
      let (sel, r') := round_robin_select r service_name x xs
      (some sel, r')
    | .LEAST_CONNECTIONS =>
      (some (pyMinAux (fun inst => inst.active_connections) x xs), r)
    | .WEIGHTED_ROUND_ROBIN =>
      let (sel, r') := weighted_round_robin_select r service_name x xs
      (some sel, r')
    | .RANDOM =>
      (some ((x :: xs).getD (rand % (xs.length + 1)) x), r)
    | .IP_HASH =>
      match client_ip with
      | none => (some ((x :: xs).getD (rand % (xs.length + 1)) x), r)
      | some ip =>
        if ip = "" then
          (some ((x :: xs).getD (rand % (xs.length + 1)) x), r)
        else
          (some ((x :: xs).getD (ipHash ip % (xs.length + 1)) x), r)

/-- Key of the per-instance request history dict
(`f-string service_name/instance_id`). -/
def histKey (service_name instance_id : String) : String :=
  service_name ++ "/" ++ instance_id

/-- `deque(maxlen=100).append`: keep the last 100 entries. -/
def appendRing (h : List RequestRecord) (x : RequestRecord) : List RequestRecord :=
  let h2 := h ++ [x]
  h2.drop (h2.length - 100)

/-- Replace the first instance whose id matches (the loop in
`update_instance_metrics` mutates the first match and breaks). -/
def replaceFirst : List ServiceInstance → String → ServiceInstance → List ServiceInstance
  | [], _, _ => []
  | inst :: rest, instance_id, newInst =>
    if inst.id == instance_id then
      newInst :: rest
    else
      inst :: replaceFirst rest instance_id newInst

/-- The response-time smoothing step of `update_instance_metrics`: the raw
sample if the stored value is 0 (the code's only "no prior sample" test),
else `old*0.9 + sample*0.1`. -/
def ewmaNext (old sample : Rat) : Rat :=
  if old = 0 then sample
  else old * (9 / 10 : Rat) + sample * (1 / 10 : Rat)

/-- The error-rate recomputation of `update_instance_metrics`: the failure
percentage over history entries whose `(now - timestamp).seconds` is below
300, keeping the old value when no entry qualifies. -/
def errorRateNext (history : List RequestRecord) (now : Nat) (old : Rat) : Rat :=
  let recent := history.filter (fun req => decide (tdSeconds now req.timestamp < 300))
  if recent.length ≠ 0 then
    ((recent.filter (fun req => !req.success)).length : Rat) / (recent.length : Rat) * 100
  else
    old

/-- `ServiceRegistry.update_instance_metrics`.  Finds the first instance with
the given id; updates its smoothed response time, appends the outcome to the
per-instance ring, and recomputes the error rate over the trailing window. -/
def update_instance_metrics (r : ServiceRegistry) (service_name instance_id : String)
    (response_time : Rat) (success : Bool) (now : Nat) : ServiceRegistry :=
  let instances := r.services service_name
  match instances.find? (fun inst => inst.id == instance_id) with
  | none => r
  | some inst =>
    let key := histKey service_name instance_id
    let history := appendRing (r.request_history key) ⟨now, success, response_time⟩
    let newInst := { inst with
      response_time := ewmaNext inst.response_time response_time,
      error_rate := errorRateNext history now inst.error_rate }
    { r with
      services := fun name =>
        if name = service_name then replaceFirst instances instance_id newInst
        else r.services name,
      request_history := fun k => if k = key then history else r.request_history k }

end Routing

/-- Breaker for the recovery-timeout analysis: OPEN with default config and a
last failure at time 0. -/
def c4breaker : Monitoring.CircuitBreaker :=
  { config := {}, state := .OPEN, failure_count := 5, success_count := 0,
    last_failure_time := some 0 }

/-- An empty registry, base of the concrete scenarios below. -/
def emptyRegistry : Routing.ServiceRegistry :=
  { services := fun _ => []
    route_rules := []
    circuit_breakers := []
    load_balancer_state := fun _ => {}
    request_history := fun _ => [] }

/-- A healthy instance for the breaker-is-ignored counterexample. -/
def c1inst : Routing.ServiceInstance := { id := "a1", url := "http://a1" }

/-- A routing-side breaker that is OPEN with a fresh failure, so its `call`
gate rejects every attempt at time 100. -/
def c1breaker : Routing.CircuitBreaker :=
  { failure_count := 5, last_failure_time := some 100, state := .OPEN }

/-- Registry with one HEALTHY instance and an OPEN breaker for its service. -/
def c1reg : Routing.ServiceRegistry :=
  { emptyRegistry with
    services := fun n => if n = "s" then [c1inst] else []
    circuit_breakers := [("s", c1breaker)] }

/-- An UNHEALTHY-only registry for the C1 witness. -/
def c1wInst : Routing.ServiceInstance :=
  { id := "u1", url := "http://u1", status := .UNHEALTHY }

def c1wReg : Routing.ServiceRegistry :=
  { emptyRegistry with services := fun n => if n = "s" then [c1wInst] else [] }

/-- A route rule with the empty pattern, for the no-validation counterexample. -/
def c9rule : Routing.RouteRule := { pattern := [], service_name := "svc" }

/-- A route rule with a nonempty pattern, for the C9 witness. -/
def c9wrule : Routing.RouteRule :=
  { pattern := "/api/x/".toList, service_name := "x-service" }

/-- Instances A (weight 2) and B (weight 1) of the weighted round-robin
scenario of the design document. -/
def c7instA : Routing.ServiceInstance := { id := "A", url := "http://a", weight := 2 }

def c7instB : Routing.ServiceInstance := { id := "B", url := "http://b", weight := 1 }

def c7reg : Routing.ServiceRegistry :=
  { emptyRegistry with services := fun n => if n = "svc" then [c7instA, c7instB] else [] }

def c7sel1 : Option Routing.ServiceInstance × Routing.ServiceRegistry :=
  Routing.select_instance c7reg "svc" .WEIGHTED_ROUND_ROBIN none 0 (fun _ => 0)

def c7sel2 : Option Routing.ServiceInstance × Routing.ServiceRegistry :=
  Routing.select_instance c7sel1.2 "svc" .WEIGHTED_ROUND_ROBIN none 0 (fun _ => 0)

def c7sel3 : Option Routing.ServiceInstance × Routing.ServiceRegistry :=
  Routing.select_instance c7sel2.2 "svc" .WEIGHTED_ROUND_ROBIN none 0 (fun _ => 0)

/-- Registry with a single fresh instance "i" under service "s". -/
def c5reg : Routing.ServiceRegistry :=
  { emptyRegistry with
    services := fun n => if n = "s" then [{ id := "i", url := "http://i" }] else [] }

/-- A failed outcome recorded at time 0 ... -/
def c5r1 : Routing.ServiceRegistry := Routing.update_instance_metrics c5reg "s" "i" 5 false 0

/-- ... followed by a successful outcome one day (86400 s) later. -/
def c5r2 : Routing.ServiceRegistry := Routing.update_instance_metrics c5r1 "s" "i" 5 true 86400

/-- A prior sample of value 0 recorded at time 0 ... -/
def c8r1 : Routing.ServiceRegistry := Routing.update_instance_metrics c5reg "s" "i" 0 true 0

/-- ... followed by a sample of value 10. -/
def c8r2 : Routing.ServiceRegistry := Routing.update_instance_metrics c8r1 "s" "i" 10 true 1

/-- Registry whose instance has a nonzero smoothed response time, for the C8
witness. -/
def c8wReg : Routing.ServiceRegistry :=
  { emptyRegistry with
    services := fun n =>
      if n = "s" then [{ id := "i", url := "http://i", response_time := 7 }] else [] }

/-- A concrete health-check result for the history-bound witness. -/
def c6result (i : Nat) : Monitoring.HealthCheckResult :=
  { service_name := "s", status := .HEALTHY, response_time := 0, timestamp := i }

/-- 150 concrete health-check results. -/
def c6xs : List Monitoring.HealthCheckResult := (List.range 150).map c6result

/-! ## Theorems -/

theorem tdSeconds_le_sub {a b : Nat} (h : b ≤ a) : tdSeconds a b ≤ a - b := by
  unfold tdSeconds
  omega

theorem tdSeconds_eq_of_le {a b : Nat} (h : b ≤ a) : tdSeconds a b = (a - b) % 86400 := by
  unfold tdSeconds
  omega

/-- C3: starting CLOSED with zero failures and threshold 5, five consecutive
`record_failure` calls leave the breaker CLOSED through the fourth and OPEN
after the fifth, stamping the fifth failure time; a `can_execute` call before
the recovery timeout has elapsed returns false and does not change the
breaker. -/
theorem C3_five_failures_open_then_reject
    (cfg : Monitoring.CircuitBreakerConfig) (sc : Nat) (lft : Option Nat)
    (t1 t2 t3 t4 t5 now : Nat) (h5 : cfg.failure_threshold = 5)
    (hle : t5 ≤ now) (hlt : now - t5 < cfg.recovery_timeout) :
    (((((⟨cfg, .CLOSED, 0, sc, lft⟩ : Monitoring.CircuitBreaker).record_failure
        t1).record_failure t2).record_failure t3).record_failure t4).state = .CLOSED ∧
    ((((((⟨cfg, .CLOSED, 0, sc, lft⟩ : Monitoring.CircuitBreaker).record_failure
        t1).record_failure t2).record_failure t3).record_failure t4).record_failure
        t5).state = .OPEN ∧
    ((((((⟨cfg, .CLOSED, 0, sc, lft⟩ : Monitoring.CircuitBreaker).record_failure
        t1).record_failure t2).record_failure t3).record_failure t4).record_failure
        t5).last_failure_time = some t5 ∧
    (((((((⟨cfg, .CLOSED, 0, sc, lft⟩ : Monitoring.CircuitBreaker).record_failure
        t1).record_failure t2).record_failure t3).record_failure t4).record_failure
        t5).can_execute now).1 = false ∧
    (((((((⟨cfg, .CLOSED, 0, sc, lft⟩ : Monitoring.CircuitBreaker).record_failure
        t1).record_failure t2).record_failure t3).record_failure t4).record_failure
        t5).can_execute now).2 =
      (((((⟨cfg, .CLOSED, 0, sc, lft⟩ : Monitoring.CircuitBreaker).record_failure
        t1).record_failure t2).record_failure t3).record_failure t4).record_failure t5 := by
  obtain ⟨ft, rt, pt, st⟩ := cfg
  simp only [Monitoring.CircuitBreakerConfig.failure_threshold] at h5
  subst h5
  have hreset : tdSeconds now t5 < rt := lt_of_le_of_lt (tdSeconds_le_sub hle) hlt
  simp [Monitoring.CircuitBreaker.record_failure, Monitoring.CircuitBreaker.can_execute,
    Monitoring.CircuitBreaker.should_attempt_reset, Nat.not_le.mpr hreset]

/-- C3 witness at concrete inputs. -/
theorem C3_five_failures_open_then_reject_witness :
    (((((⟨{}, .CLOSED, 0, 0, none⟩ : Monitoring.CircuitBreaker).record_failure
        1).record_failure 2).record_failure 3).record_failure 4).state = .CLOSED ∧
    ((((((⟨{}, .CLOSED, 0, 0, none⟩ : Monitoring.CircuitBreaker).record_failure
        1).record_failure 2).record_failure 3).record_failure 4).record_failure
        5).state = .OPEN ∧
    ((((((⟨{}, .CLOSED, 0, 0, none⟩ : Monitoring.CircuitBreaker).record_failure
        1).record_failure 2).record_failure 3).record_failure 4).record_failure
        5).last_failure_time = some 5 ∧
    (((((((⟨{}, .CLOSED, 0, 0, none⟩ : Monitoring.CircuitBreaker).record_failure
        1).record_failure 2).record_failure 3).record_failure 4).record_failure
        5).can_execute 6).1 = false ∧
    (((((((⟨{}, .CLOSED, 0, 0, none⟩ : Monitoring.CircuitBreaker).record_failure
        1).record_failure 2).record_failure 3).record_failure 4).record_failure
        5).can_execute 6).2 =
      (((((⟨{}, .CLOSED, 0, 0, none⟩ : Monitoring.CircuitBreaker).record_failure
        1).record_failure 2).record_failure 3).record_failure 4).record_failure 5 :=
  C3_five_failures_open_then_reject {} 0 none 1 2 3 4 5 6 (by decide) (by decide) (by decide)

/-- C4 (code bug): with the default config (`recovery_timeout = 60`), an OPEN
breaker whose last failure was exactly one day ago — far more than the
recovery timeout — still answers `can_execute = false` and stays OPEN, because
Python `timedelta.seconds` wraps at 86400; the design says any elapsed time of
at least the recovery timeout must yield true and a transition to HALF_OPEN. -/
theorem C4_open_breaker_stuck_after_one_day :
    c4breaker.config.recovery_timeout ≤ 86400 - 0 ∧
    c4breaker.last_failure_time = some 0 ∧
    (c4breaker.can_execute 86400).1 = false ∧
    (c4breaker.can_execute 86400).2.state = .OPEN := by
  decide

theorem appendHistoryBounded_eq (h : List Monitoring.HealthCheckResult)
    (x : Monitoring.HealthCheckResult) :
    Monitoring.appendHistoryBounded h x = Monitoring.takeLast100 (h ++ [x]) := by
  simp only [Monitoring.appendHistoryBounded, Monitoring.takeLast100]
  split
  · rfl
  · next hc =>
    have hz : (h ++ [x]).length - 100 = 0 := by omega
    rw [hz, List.drop_zero]

theorem appendHistoryBounded_length_le (h : List Monitoring.HealthCheckResult)
    (x : Monitoring.HealthCheckResult) :
    (Monitoring.appendHistoryBounded h x).length ≤ 100 := by
  simp only [Monitoring.appendHistoryBounded]
  split
  · next hc => simp only [List.length_drop]; omega
  · next hc => omega

theorem takeLast100_append_left {α : Type} (l xs : List α) :
    Monitoring.takeLast100 (Monitoring.takeLast100 l ++ xs) =
      Monitoring.takeLast100 (l ++ xs) := by
  simp only [Monitoring.takeLast100]
  by_cases hl : l.length ≤ 100
  · have hz : l.length - 100 = 0 := by omega
    rw [hz, List.drop_zero]
  · have hlen : (l.drop (l.length - 100)).length = 100 := by
      simp only [List.length_drop]; omega
    rw [List.length_append, List.length_append, hlen]
    have h1 : (100 + xs.length) - 100 = xs.length := by omega
    have h2 : (l.length + xs.length) - 100 = (l.length - 100) + xs.length := by omega
    have key : l.drop (l.length - 100) ++ xs = (l ++ xs).drop (l.length - 100) :=
      (List.drop_append_of_le_length (by omega)).symm
    rw [h1, h2, key, List.drop_drop]

theorem foldl_appendHistoryBounded (xs : List Monitoring.HealthCheckResult) :
    ∀ h : List Monitoring.HealthCheckResult, h.length ≤ 100 →
      List.foldl Monitoring.appendHistoryBounded h xs =
        Monitoring.takeLast100 (h ++ xs) := by
  induction xs with
  | nil =>
    intro h hh
    simp only [List.foldl_nil, List.append_nil, Monitoring.takeLast100]
    have hz : h.length - 100 = 0 := by omega
    rw [hz, List.drop_zero]
  | cons x xs ih =>
    intro h hh
    rw [List.foldl_cons, ih _ (appendHistoryBounded_length_le h x), appendHistoryBounded_eq,
      takeLast100_append_left]
    congr 1
    simp

/-- C6: the per-service health history stays bounded by 100 across any
sequence of the appends performed by `check_all_services` (starting from any
in-bound history), and appending 150 results to an empty history leaves
exactly the most recent 100, in order. -/
theorem C6_history_bound (xs : List Monitoring.HealthCheckResult)
    (h : List Monitoring.HealthCheckResult) (hh : h.length ≤ 100) :
    (List.foldl Monitoring.appendHistoryBounded h xs).length ≤ 100 ∧
      (xs.length = 150 →
        List.foldl Monitoring.appendHistoryBounded
            ([] : List Monitoring.HealthCheckResult) xs = xs.drop 50) := by
  constructor
  · rw [foldl_appendHistoryBounded xs h hh]
    simp only [Monitoring.takeLast100, List.length_drop]
    omega
  · intro h150
    rw [foldl_appendHistoryBounded xs [] (by simp)]
    simp only [Monitoring.takeLast100, List.nil_append, h150]

/-- C6 witness: 150 concrete results. -/
theorem C6_history_bound_witness :
    (List.foldl Monitoring.appendHistoryBounded [] c6xs).length ≤ 100 ∧
      List.foldl Monitoring.appendHistoryBounded [] c6xs = c6xs.drop 50 :=
  ⟨(C6_history_bound c6xs [] (by simp)).1,
   (C6_history_bound c6xs [] (by simp)).2 (by simp [c6xs])⟩

/-- C1 (amended): when every instance of a service is UNHEALTHY or
MAINTENANCE, `select_instance` returns `none` for every strategy, client IP
and randomness, leaving the registry unchanged (the embedding is total, so no
exception path exists); and the eligible instances are exactly those whose
status is HEALTHY or DEGRADED — the circuit breaker is not consulted. -/
theorem C1_select_none_when_all_ineligible (r : Routing.ServiceRegistry) (s : String)
    (strat : Routing.LoadBalancingStrategy) (ip : Option String) (rand : Nat)
    (ipHash : String → Nat) :
    ((∀ inst ∈ r.services s,
        inst.status = Routing.ServiceStatus.UNHEALTHY ∨
        inst.status = Routing.ServiceStatus.MAINTENANCE) →
      (Routing.select_instance r s strat ip rand ipHash).1 = none ∧
      (Routing.select_instance r s strat ip rand ipHash).2 = r) ∧
    ∀ inst, inst ∈ Routing.get_healthy_instances r s ↔
      inst ∈ r.services s ∧
        (inst.status = Routing.ServiceStatus.HEALTHY ∨
         inst.status = Routing.ServiceStatus.DEGRADED) := by
  constructor
  · intro hall
    have hempty : Routing.get_healthy_instances r s = [] := by
      simp only [Routing.get_healthy_instances, List.filter_eq_nil_iff]
      intro a ha
      rcases hall a ha with h | h <;> simp [h]
    constructor <;> simp [Routing.select_instance, hempty]
  · intro inst
    simp [Routing.get_healthy_instances, List.mem_filter]

/-- C1 witness: a service whose only instance is UNHEALTHY. -/
theorem C1_select_none_when_all_ineligible_witness :
    ((Routing.select_instance c1wReg "s" .ROUND_ROBIN none 0 (fun _ => 0)).1 = none ∧
      (Routing.select_instance c1wReg "s" .ROUND_ROBIN none 0 (fun _ => 0)).2 = c1wReg) ∧
    (c1wInst ∈ Routing.get_healthy_instances c1wReg "s" ↔
      c1wInst ∈ c1wReg.services "s" ∧
        (c1wInst.status = Routing.ServiceStatus.HEALTHY ∨
         c1wInst.status = Routing.ServiceStatus.DEGRADED)) :=
  ⟨(C1_select_none_when_all_ineligible c1wReg "s" .ROUND_ROBIN none 0 (fun _ => 0)).1
      (by intro inst h; simp [c1wReg, emptyRegistry] at h; simp [h, c1wInst]),
   (C1_select_none_when_all_ineligible c1wReg "s" .ROUND_ROBIN none 0 (fun _ => 0)).2 c1wInst⟩

/-- C1 counterexample: the claim also demands `none` whenever the service's
circuit breaker rejects attempts (is OPEN), but the code never consults the
breaker: with one HEALTHY instance and an OPEN breaker whose gate answers
false, `select_instance` still returns the instance. -/
theorem C1_counterexample :
    dictGet? c1reg.circuit_breakers "s" = some c1breaker ∧
    c1breaker.canExecute 100 = false ∧
    c1breaker.state = Routing.BreakerState.OPEN ∧
    (Routing.select_instance c1reg "s" .ROUND_ROBIN none 0 (fun _ => 0)).1 = some c1inst := by
  refine ⟨by decide, by decide, by decide, ?_⟩
  norm_num +decide [Routing.select_instance, Routing.get_healthy_instances, c1reg,
    emptyRegistry, c1inst, Routing.round_robin_select]

theorem splitOnChar_of_not_mem {c : Char} {s : List Char} (hc : c ∉ s) :
    Routing.splitOnChar c s = [s] := by
  induction s with
  | nil => rfl
  | cons a rest ih =>
    have ha : ¬a = c := fun h => hc (h ▸ List.mem_cons_self a rest)
    have hrest : c ∉ rest := fun h => hc (List.mem_cons_of_mem a h)
    simp [Routing.splitOnChar, ha, ih hrest]

theorem splitOnChar_single (before after : List Char) (hb : '*' ∉ before)
    (ha : '*' ∉ after) :
    Routing.splitOnChar '*' (before ++ '*' :: after) = [before, after] := by
  induction before with
  | nil => simp [Routing.splitOnChar, splitOnChar_of_not_mem ha]
  | cons a rest ih =>
    have ha' : ¬a = '*' := fun h => hb (h ▸ List.mem_cons_self a rest)
    have hrest : '*' ∉ rest := fun h => hb (List.mem_cons_of_mem a h)
    simp [Routing.splitOnChar, ha', ih hrest]

theorem startsWithL_iff (p s : List Char) :
    Routing.startsWithL p s = true ↔ ∃ t, s = p ++ t := by
  induction p generalizing s with
  | nil => simp [Routing.startsWithL]
  | cons a as ih =>
    cases s with
    | nil => simp [Routing.startsWithL]
    | cons b bs =>
      simp only [Routing.startsWithL, Bool.and_eq_true, beq_iff_eq, ih, List.cons_append,
        List.cons.injEq]
      constructor
      · rintro ⟨hab, t, ht⟩
        exact ⟨t, hab.symm, ht⟩
      · rintro ⟨t, hab, ht⟩
        exact ⟨hab.symm, t, ht⟩

theorem endsWithL_iff (p s : List Char) :
    Routing.endsWithL p s = true ↔ ∃ t, s = t ++ p := by
  rw [Routing.endsWithL, startsWithL_iff]
  constructor
  · rintro ⟨t, ht⟩
    refine ⟨t.reverse, ?_⟩
    have := congrArg List.reverse ht
    simpa using this
  · rintro ⟨t, ht⟩
    exact ⟨t.reverse, by simp [ht]⟩

/-- C2 (amended): a pattern with exactly one `*` matches exactly the paths
that start with the part before the `*` and end with the part after it — with
no constraint on what the `*` spans, so `/api/*/read` matches `/api/foo/read`
and also `/api/foo/bar/read`. -/
theorem C2_single_wildcard (before after path : List Char) (hb : '*' ∉ before)
    (ha : '*' ∉ after) :
    (Routing.pattern_matches (before ++ '*' :: after) path = true ↔
      (∃ t, path = before ++ t) ∧ ∃ t, path = t ++ after) ∧
    Routing.pattern_matches "/api/*/read".toList "/api/foo/read".toList = true := by
  refine ⟨?_, by decide⟩
  simp [Routing.pattern_matches, splitOnChar_single before after hb ha,
    startsWithL_iff, endsWithL_iff]

/-- C2 witness at the pattern `/api/*/read` and path `/api/foo/read`. -/
theorem C2_single_wildcard_witness :
    (Routing.pattern_matches ("/api/".toList ++ '*' :: "/read".toList)
        "/api/foo/read".toList = true ↔
      (∃ t, "/api/foo/read".toList = "/api/".toList ++ t) ∧
        ∃ t, "/api/foo/read".toList = t ++ "/read".toList) ∧
    Routing.pattern_matches "/api/*/read".toList "/api/foo/read".toList = true :=
  C2_single_wildcard "/api/".toList "/read".toList "/api/foo/read".toList
    (by decide) (by decide)

/-- C2 counterexample: the claim says `/api/*/read` does not match
`/api/foo/bar/read`, but the code matches it (the path starts with `/api/`
and ends with `/read`). -/
theorem C2_counterexample :
    Routing.pattern_matches "/api/*/read".toList "/api/foo/bar/read".toList = true := by
  decide

theorem dictGet?_upsert_self {κ ν : Type} [DecidableEq κ] (l : List (κ × ν)) (k : κ) (v : ν) :
    dictGet? (dictUpsert l k v) k = some v := by
  induction l with
  | nil => simp [dictUpsert, dictGet?]
  | cons kv rest ih =>
    obtain ⟨k', v'⟩ := kv
    by_cases hk : k' = k
    · simp [dictUpsert, dictGet?, hk]
    · simp [dictUpsert, dictGet?, hk, ih]

theorem dictGet?_upsert_ne {κ ν : Type} [DecidableEq κ] (l : List (κ × ν)) (k q : κ) (v : ν)
    (h : q ≠ k) : dictGet? (dictUpsert l k v) q = dictGet? l q := by
  induction l with
  | nil =>
    have h' : ¬k = q := fun he => h he.symm
    simp [dictUpsert, dictGet?, h']
  | cons kv rest ih =>
    obtain ⟨k', v'⟩ := kv
    by_cases hk : k' = k
    · subst hk
      have h' : ¬k' = q := fun he => h he.symm
      simp [dictUpsert, dictGet?, h']
    · simp [dictUpsert, dictGet?, hk, ih]

theorem dictUpsert_idem {κ ν : Type} [DecidableEq κ] (l : List (κ × ν)) (k : κ) (v : ν) :
    dictUpsert (dictUpsert l k v) k v = dictUpsert l k v := by
  induction l with
  | nil => simp [dictUpsert]
  | cons kv rest ih =>
    obtain ⟨k', v'⟩ := kv
    by_cases hk : k' = k <;> simp [dictUpsert, hk, ih]

/-- C9 (amended): `add_route_rule` performs no validation whatsoever: every
pattern — the empty pattern included — is upserted idempotently by pattern,
leaving every other pattern's rule and the rest of the registry unchanged. -/
theorem C9_add_route_rule_upsert (r : Routing.ServiceRegistry) (p : List Char)
    (rule : Routing.RouteRule) :
    dictGet? (Routing.add_route_rule r p rule).route_rules p = some rule ∧
    Routing.add_route_rule (Routing.add_route_rule r p rule) p rule =
      Routing.add_route_rule r p rule ∧
    (∀ q, q ≠ p → dictGet? (Routing.add_route_rule r p rule).route_rules q =
      dictGet? r.route_rules q) ∧
    (Routing.add_route_rule r p rule).services = r.services ∧
    (Routing.add_route_rule r p rule).circuit_breakers = r.circuit_breakers ∧
    (Routing.add_route_rule r p rule).load_balancer_state = r.load_balancer_state ∧
    (Routing.add_route_rule r p rule).request_history = r.request_history := by
  refine ⟨dictGet?_upsert_self r.route_rules p rule, ?_,
    fun q hq => dictGet?_upsert_ne r.route_rules p q rule hq, rfl, rfl, rfl, rfl⟩
  simp [Routing.add_route_rule, dictUpsert_idem]

/-- C9 witness: the empty pattern is upserted like any other. -/
theorem C9_add_route_rule_upsert_witness :
    dictGet? (Routing.add_route_rule emptyRegistry [] c9rule).route_rules [] = some c9rule ∧
    dictGet? (Routing.add_route_rule emptyRegistry [] c9rule).route_rules "/q/".toList =
      dictGet? emptyRegistry.route_rules "/q/".toList :=
  ⟨(C9_add_route_rule_upsert emptyRegistry [] c9rule).1,
   (C9_add_route_rule_upsert emptyRegistry [] c9rule).2.2.1 "/q/".toList (by decide)⟩

/-- C9 counterexample: registering a rule under the empty pattern is not
refused — it lands in the route table, which therefore changes. -/
theorem C9_counterexample :
    (Routing.add_route_rule emptyRegistry [] c9rule).route_rules = [([], c9rule)] ∧
    (Routing.add_route_rule emptyRegistry [] c9rule).route_rules ≠
      emptyRegistry.route_rules := by
  constructor
  · rfl
  · intro h
    simp [Routing.add_route_rule, emptyRegistry, dictUpsert] at h

theorem pyMinAux_isFirstArgmin {α β : Type} [LinearOrder β] (key : α → β) (xs : List α) :
    ∀ x, IsFirstArgmin key (x :: xs) (pyMinAux key x xs) := by
  induction xs with
  | nil =>
    intro x
    refine ⟨0, rfl, ?_, ?_⟩
    · intro j z hj
      cases j with
      | zero =>
        simp only [List.get?_cons_zero, Option.some.injEq] at hj
        subst hj
        exact le_refl _
      | succ n => simp at hj
    · intro j z hjlt _
      omega
  | cons y ys ih =>
    intro x
    by_cases hlt : key y < key x
    · have hred : pyMinAux key x (y :: ys) = pyMinAux key y ys := by
        simp [pyMinAux, hlt]
      rw [hred]
      obtain ⟨i, hi, hmin, hstrict⟩ := ih y
      have hky : key (pyMinAux key y ys) ≤ key y := hmin 0 y rfl
      refine ⟨i + 1, by simpa using hi, ?_, ?_⟩
      · intro j z hj
        cases j with
        | zero =>
          simp only [List.get?_cons_zero, Option.some.injEq] at hj
          subst hj
          exact le_of_lt (lt_of_le_of_lt hky hlt)
        | succ n => exact hmin n z (by simpa using hj)
      · intro j z hjlt hj
        cases j with
        | zero =>
          simp only [List.get?_cons_zero, Option.some.injEq] at hj
          subst hj
          exact lt_of_le_of_lt hky hlt
        | succ n => exact hstrict n z (by omega) (by simpa using hj)
    · have hred : pyMinAux key x (y :: ys) = pyMinAux key x ys := by
        simp [pyMinAux, hlt]
      rw [hred]
      have hxy : key x ≤ key y := le_of_not_lt hlt
      obtain ⟨i, hi, hmin, hstrict⟩ := ih x
      cases i with
      | zero =>
        refine ⟨0, by simpa using hi, ?_, ?_⟩
        · intro j z hj
          cases j with
          | zero =>
            simp only [List.get?_cons_zero, Option.some.injEq] at hj
            subst hj
            exact hmin 0 x rfl
          | succ n =>
            cases n with
            | zero =>
              simp only [List.get?_cons_succ, List.get?_cons_zero, Option.some.injEq] at hj
              subst hj
              exact le_trans (hmin 0 x rfl) hxy
            | succ m => exact hmin (m + 1) z (by simpa using hj)
        · intro j z hjlt _
          omega
      | succ n =>
        refine ⟨n + 2, by simpa using hi, ?_, ?_⟩
        · intro j z hj
          cases j with
          | zero =>
            simp only [List.get?_cons_zero, Option.some.injEq] at hj
            subst hj
            exact hmin 0 x rfl
          | succ m =>
            cases m with
            | zero =>
              simp only [List.get?_cons_succ, List.get?_cons_zero, Option.some.injEq] at hj
              subst hj
              exact le_trans (hmin 0 x rfl) hxy
            | succ p => exact hmin (p + 1) z (by simpa using hj)
        · intro j z hjlt hj
          cases j with
          | zero =>
            simp only [List.get?_cons_zero, Option.some.injEq] at hj
            subst hj
            exact hstrict 0 x (Nat.succ_pos n) rfl
          | succ m =>
            cases m with
            | zero =>
              simp only [List.get?_cons_succ, List.get?_cons_zero, Option.some.injEq] at hj
              subst hj
              exact lt_of_lt_of_le (hstrict 0 x (Nat.succ_pos n) rfl) hxy
            | succ p => exact hstrict (p + 1) z (by omega) (by simpa using hj)

/-- C7: weighted round-robin selects the instance minimizing
`counter(id)/weight` (counters default to 0), ties broken by first position,
and increments exactly that instance's counter; concretely, with A (weight 2)
and B (weight 1) registered in that order, three consecutive selections yield
A, B, A.  The weight hypothesis keeps the statement within the source's
domain: weights are positive integers there, so the Python division is
defined. -/
theorem C7_weighted_round_robin (r : Routing.ServiceRegistry) (s : String)
    (x : Routing.ServiceInstance) (xs : List Routing.ServiceInstance)
    (ip : Option String) (rand : Nat) (ipHash : String → Nat)
    (hhealthy : Routing.get_healthy_instances r s = x :: xs)
    (hw : ∀ inst ∈ x :: xs, 1 ≤ inst.weight) :
    (∃ sel,
      (Routing.select_instance r s .WEIGHTED_ROUND_ROBIN ip rand ipHash).1 = some sel ∧
      IsFirstArgmin
        (fun inst =>
          ((((r.load_balancer_state s).weighted_counters.getD (fun _ => 0)) inst.id : Rat) /
            (inst.weight : Rat)))
        (x :: xs) sel ∧
      (((Routing.select_instance r s .WEIGHTED_ROUND_ROBIN ip rand
            ipHash).2.load_balancer_state s).weighted_counters =
        some (fun iid =>
          if iid = sel.id then
            ((r.load_balancer_state s).weighted_counters.getD (fun _ => 0)) iid + 1
          else ((r.load_balancer_state s).weighted_counters.getD (fun _ => 0)) iid))) ∧
    (c7sel1.1 = some c7instA ∧ c7sel2.1 = some c7instB ∧ c7sel3.1 = some c7instA) := by
  constructor
  · refine ⟨pyMinAux
      (fun inst =>
        ((((r.load_balancer_state s).weighted_counters.getD (fun _ => 0)) inst.id : Rat) /
          (inst.weight : Rat))) x xs, ?_, pyMinAux_isFirstArgmin _ xs x, ?_⟩
    · simp [Routing.select_instance, hhealthy, Routing.weighted_round_robin_select]
    · simp [Routing.select_instance, hhealthy, Routing.weighted_round_robin_select]
  · refine ⟨?_, ?_, ?_⟩ <;>
      norm_num +decide [c7sel1, c7sel2, c7sel3, c7reg, c7instA, c7instB, emptyRegistry,
        Routing.select_instance, Routing.get_healthy_instances,
        Routing.weighted_round_robin_select, pyMinAux]

/-- C7 witness: the A, B, A scenario, obtained from the theorem itself. -/
theorem C7_weighted_round_robin_witness :
    c7sel1.1 = some c7instA ∧ c7sel2.1 = some c7instB ∧ c7sel3.1 = some c7instA :=
  (C7_weighted_round_robin c7reg "svc" c7instA [c7instB] none 0 (fun _ => 0)
    rfl (by decide)).2

theorem find?_replaceFirst (l : List Routing.ServiceInstance) (i : String)
    (v inst : Routing.ServiceInstance)
    (hfind : l.find? (fun a => a.id == i) = some inst) (hv : (v.id == i) = true) :
    (Routing.replaceFirst l i v).find? (fun a => a.id == i) = some v := by
  induction l with
  | nil => simp [List.find?] at hfind
  | cons a rest ih =>
    by_cases ha : (a.id == i) = true
    · simp [Routing.replaceFirst, ha, List.find?, hv]
    · rw [List.find?_cons_of_neg _ (by simpa using ha)] at hfind
      simp only [Routing.replaceFirst, ha, Bool.false_eq_true, if_false]
      rw [List.find?_cons_of_neg _ (by simpa using ha)]
      exact ih hfind

theorem find?_replaceFirstUpd (l : List Routing.ServiceInstance) (i : String)
    (inst : Routing.ServiceInstance) (rt er : Rat)
    (hfind : l.find? (fun a => a.id == i) = some inst) :
    (Routing.replaceFirst l i
        { inst with response_time := rt, error_rate := er }).find?
      (fun a => a.id == i) =
      some { inst with response_time := rt, error_rate := er } := by
  apply find?_replaceFirst l i _ inst hfind
  have hpred := List.find?_some hfind
  simpa using hpred

/-- C8 (amended): `update_instance_metrics` sets the smoothed response time of
the matched instance to `old*0.9 + sample*0.1` when the stored value is
nonzero, and to the raw sample when the stored value is 0 — which is the case
when no prior sample exists, but also when all prior samples were 0, since the
code uses `response_time == 0` as its only "no prior sample" test. -/
theorem C8_ewma_update (r : Routing.ServiceRegistry) (s i : String)
    (inst : Routing.ServiceInstance) (sample : Rat) (succ : Bool) (now : Nat)
    (hfind : (r.services s).find? (fun a => a.id == i) = some inst) :
    (inst.response_time = 0 →
      (((Routing.update_instance_metrics r s i sample succ now).services s).find?
          (fun a => a.id == i)).map Routing.ServiceInstance.response_time = some sample) ∧
    (inst.response_time ≠ 0 →
      (((Routing.update_instance_metrics r s i sample succ now).services s).find?
          (fun a => a.id == i)).map Routing.ServiceInstance.response_time =
        some (inst.response_time * (9 / 10 : Rat) + sample * (1 / 10 : Rat))) := by
  constructor <;> intro h <;>
    simp [Routing.update_instance_metrics, hfind, find?_replaceFirstUpd, Routing.ewmaNext, h]

/-- C8 witness: an instance whose stored response time is 7 gets
`7*0.9 + 5*0.1`; the zero branch is exercised through the hypothesis form. -/
theorem C8_ewma_update_witness :
    (((Routing.update_instance_metrics c8wReg "s" "i" 5 true 0).services "s").find?
        (fun a => a.id == "i")).map Routing.ServiceInstance.response_time =
      some ((7 : Rat) * (9 / 10 : Rat) + 5 * (1 / 10 : Rat)) :=
  (C8_ewma_update c8wReg "s" "i"
      { id := "i", url := "http://i", response_time := 7 } 5 true 0 rfl).2
    (by norm_num)

/-- C8 counterexample: after a first recorded sample of value 0 (so a prior
sample exists and the history is nonempty), a second sample of 10 is stored
raw — 10 — instead of the claimed `0*0.9 + 10*0.1 = 1`, because the stored
value 0 is mistaken for "no prior sample". -/
theorem C8_counterexample :
    (c8r1.request_history (Routing.histKey "s" "i")).length = 1 ∧
    ((c8r1.services "s").find? (fun a => a.id == "i")).map
      Routing.ServiceInstance.response_time = some 0 ∧
    ((c8r2.services "s").find? (fun a => a.id == "i")).map
      Routing.ServiceInstance.response_time = some 10 ∧
    (10 : Rat) ≠ 0 * (9 / 10 : Rat) + 10 * (1 / 10 : Rat) := by
  refine ⟨?_, ?_, ?_, by norm_num⟩ <;>
    norm_num +decide [c8r1, c8r2, c5reg, emptyRegistry, Routing.update_instance_metrics,
      Routing.ewmaNext, Routing.errorRateNext, Routing.replaceFirst, Routing.appendRing,
      Routing.histKey, tdSeconds, List.find?, List.filter]

/-- C5 (code bug): the error-rate window test uses Python `timedelta.seconds`,
which wraps at 86400: a failed outcome recorded a full day before the current
update still counts as "recent", so the error rate after a fresh success is
50% where the claimed 5-minute window (the day-old failure excluded) demands
0%. -/
theorem C5_error_window_wraps_after_one_day :
    c5r1.request_history (Routing.histKey "s" "i") =
      [{ timestamp := 0, success := false, response_time := 5 }] ∧
    tdSeconds 86400 0 < 300 ∧
    ((c5r2.services "s").find? (fun a => a.id == "i")).map
      Routing.ServiceInstance.error_rate = some 50 ∧
    (50 : Rat) ≠ 0 := by
  refine ⟨?_, by decide, ?_, by norm_num⟩ <;>
    norm_num +decide [c5r1, c5r2, c5reg, emptyRegistry, Routing.update_instance_metrics,
      Routing.ewmaNext, Routing.errorRateNext, Routing.replaceFirst, Routing.appendRing,
      Routing.histKey, tdSeconds, List.find?, List.filter]

theorem replaceFirst_length (l : List Routing.ServiceInstance) (i : String)
    (v : Routing.ServiceInstance) : (Routing.replaceFirst l i v).length = l.length := by
  induction l with
  | nil => rfl
  | cons a rest ih =>
    by_cases ha : (a.id == i) = true <;> simp [Routing.replaceFirst, ha, ih]

theorem replaceFirst_get? (l : List Routing.ServiceInstance) (i : String)
    (v : Routing.ServiceInstance) (j : Nat) :
    (Routing.replaceFirst l i v).get? j = l.get? j ∨
      ((Routing.replaceFirst l i v).get? j = some v ∧
        l.find? (fun a => a.id == i) = l.get? j) := by
  induction l generalizing j with
  | nil => left; rfl
  | cons a rest ih =>
    by_cases ha : (a.id == i) = true
    · cases j with
      | zero =>
        right
        refine ⟨by simp [Routing.replaceFirst, ha], ?_⟩
        simp [ha]
      | succ n => left; simp [Routing.replaceFirst, ha]
    · cases j with
      | zero => left; simp [Routing.replaceFirst, ha]
      | succ n =>
        have hstep : (Routing.replaceFirst (a :: rest) i v).get? (n + 1) =
            (Routing.replaceFirst rest i v).get? n := by
          simp [Routing.replaceFirst, ha]
        have hfs : List.find? (fun b => b.id == i) (a :: rest) =
            List.find? (fun b => b.id == i) rest := by
          simp [ha]
        rcases ih n with h | ⟨h1, h2⟩
        · left
          rw [hstep, List.get?_cons_succ]
          exact h
        · right
          refine ⟨by rw [hstep]; exact h1, ?_⟩
          rw [hfs, List.get?_cons_succ]
          exact h2

theorem replaceFirst_uniqueDiff (l : List Routing.ServiceInstance) (i : String)
    (v : Routing.ServiceInstance) :
    ∀ j1 j2, (Routing.replaceFirst l i v).get? j1 ≠ l.get? j1 →
      (Routing.replaceFirst l i v).get? j2 ≠ l.get? j2 → j1 = j2 := by
  induction l with
  | nil => intro j1 j2 h1 _; exact absurd rfl h1
  | cons a rest ih =>
    intro j1 j2 h1 h2
    by_cases ha : (a.id == i) = true
    · cases j1 with
      | zero =>
        cases j2 with
        | zero => rfl
        | succ n => exact absurd (by simp [Routing.replaceFirst, ha]) h2
      | succ n => exact absurd (by simp [Routing.replaceFirst, ha]) h1
    · cases j1 with
      | zero => exact absurd (by simp [Routing.replaceFirst, ha]) h1
      | succ n1 =>
        cases j2 with
        | zero => exact absurd (by simp [Routing.replaceFirst, ha]) h2
        | succ n2 =>
          have := ih n1 n2 (by simpa [Routing.replaceFirst, ha] using h1)
            (by simpa [Routing.replaceFirst, ha] using h2)
          omega

/-- C10: `update_instance_metrics` changes at most the matched instance's
`response_time` and `error_rate` and that one instance's request-history ring:
the route table, all circuit breakers, the load-balancer state, every other
service's instances, and every other history key are untouched; positionally,
every instance keeps its id, url, weight, status, last-check time, connection
count, version and metadata, and at most one position differs from before;
when no instance matches the id, the registry is returned unchanged. -/
theorem C10_update_metrics_frame (r r' : Routing.ServiceRegistry) (s i : String)
    (sample : Rat) (succ : Bool) (now : Nat)
    (hr' : r' = Routing.update_instance_metrics r s i sample succ now) :
    r'.route_rules = r.route_rules ∧
    r'.circuit_breakers = r.circuit_breakers ∧
    (∀ n, r'.load_balancer_state n = r.load_balancer_state n) ∧
    (∀ n, n ≠ s → r'.services n = r.services n) ∧
    (∀ k, k ≠ Routing.histKey s i → r'.request_history k = r.request_history k) ∧
    ((r.services s).find? (fun a => a.id == i) = none → r' = r) ∧
    (r'.services s).length = (r.services s).length ∧
    (∀ j, (r'.services s).get? j = (r.services s).get? j ∨
      ∃ a b, (r.services s).get? j = some a ∧ (r'.services s).get? j = some b ∧
        b.id = a.id ∧ b.url = a.url ∧ b.weight = a.weight ∧ b.status = a.status ∧
        b.last_health_check = a.last_health_check ∧
        b.active_connections = a.active_connections ∧ b.version = a.version ∧
        b.metadata = a.metadata) ∧
    (∀ j1 j2, (r'.services s).get? j1 ≠ (r.services s).get? j1 →
      (r'.services s).get? j2 ≠ (r.services s).get? j2 → j1 = j2) := by
  rcases hfind : (r.services s).find? (fun a => a.id == i) with _ | inst
  · have hid : r' = r := by
      rw [hr']
      simp [Routing.update_instance_metrics, hfind]
    subst hid
    exact ⟨rfl, rfl, fun _ => rfl, fun _ _ => rfl, fun _ _ => rfl, fun _ => rfl, rfl,
      fun _ => Or.inl rfl, fun _ _ h1 _ => absurd rfl h1⟩
  · subst hr'
    have hsv : (Routing.update_instance_metrics r s i sample succ now).services s =
        Routing.replaceFirst (r.services s) i
          { inst with
            response_time := Routing.ewmaNext inst.response_time sample,
            error_rate := Routing.errorRateNext
              (Routing.appendRing (r.request_history (Routing.histKey s i))
                ⟨now, succ, sample⟩) now inst.error_rate } := by
      simp [Routing.update_instance_metrics, hfind]
    refine ⟨?_, ?_, ?_, ?_, ?_, ?_, ?_, ?_, ?_⟩
    · simp [Routing.update_instance_metrics, hfind]
    · simp [Routing.update_instance_metrics, hfind]
    · intro n
      simp [Routing.update_instance_metrics, hfind]
    · intro n hn
      simp [Routing.update_instance_metrics, hfind, hn]
    · intro k hk
      simp [Routing.update_instance_metrics, hfind, hk]
    · intro h0
      rw [hfind] at h0
      cases h0
    · rw [hsv, replaceFirst_length]
    · intro j
      rcases replaceFirst_get? (r.services s) i
          { inst with
            response_time := Routing.ewmaNext inst.response_time sample,
            error_rate := Routing.errorRateNext
              (Routing.appendRing (r.request_history (Routing.histKey s i))
                ⟨now, succ, sample⟩) now inst.error_rate } j with h | ⟨h1, h2⟩
      · left
        rw [hsv]
        exact h
      · right
        rw [hfind] at h2
        refine ⟨inst,
          { inst with
            response_time := Routing.ewmaNext inst.response_time sample,
            error_rate := Routing.errorRateNext
              (Routing.appendRing (r.request_history (Routing.histKey s i))
                ⟨now, succ, sample⟩) now inst.error_rate },
          h2.symm, ?_, rfl, rfl, rfl, rfl, rfl, rfl, rfl, rfl⟩
        rw [hsv]
        exact h1
    · intro j1 j2 h1 h2
      rw [hsv] at h1 h2
      exact replaceFirst_uniqueDiff (r.services s) i _ j1 j2 h1 h2

/-- C10 witness: a concrete update on `c5reg` and frame facts extracted from
the theorem. -/
theorem C10_update_metrics_frame_witness :
    (Routing.update_instance_metrics c5reg "s" "i" 5 false 0).route_rules =
      c5reg.route_rules ∧
    (Routing.update_instance_metrics c5reg "s" "i" 5 false 0).services "other" =
      c5reg.services "other" ∧
    (Routing.update_instance_metrics c5reg "s" "i" 5 false 0).request_history "x/y" =
      c5reg.request_history "x/y" :=
  ⟨(C10_update_metrics_frame c5reg _ "s" "i" 5 false 0 rfl).1,
   (C10_update_metrics_frame c5reg _ "s" "i" 5 false 0 rfl).2.2.2.1 "other" (by decide),
   (C10_update_metrics_frame c5reg _ "s" "i" 5 false 0 rfl).2.2.2.2.1 "x/y" (by decide)⟩
